import Mathlib

/-!
Verification of the billbee-node-api request pipeline.

The development shallowly embeds the core of the repository:
the `bigIntStringify` textual rewrite (the regex replace of a colon
followed by exactly seventeen digits), the masking variant of that
rewrite (TikTokOrderID placeholders), JSON decoding as performed by
`JSON.parse`, and the per-verb request pipeline with its single
429 delay-and-retry branch.

Strings are modelled as `List Char`.  JSON numeric literals are modelled
exactly (as integers); the development only ever compares string-typed
versus number-typed decoded fields, so floating-point rounding of the
host decoder never has to be modelled.  The JSON fragment embedded here
covers objects, arrays, strings with the simple escapes, integer
numerals, booleans and null; this is the fragment exercised by every
response body considered in the claims.
-/

namespace Billbee

/-- Structured JSON values as produced by `JSON.parse`.  Objects keep their
key/value pairs in textual order. -/
inductive Json where
  | null : Json
  | bool (b : Bool) : Json
  | num (n : Int) : Json
  | str (s : List Char) : Json
  | arr (elems : List Json) : Json
  | obj (members : List (List Char × Json)) : Json

/-- Opening brace character. -/
def lbrace : Char := Char.ofNat 123

/-- Closing brace character. -/
def rbrace : Char := Char.ofNat 125

/-- JSON whitespace: space, tab, line feed, carriage return. -/
def isWs (c : Char) : Bool := c = ' ' ∨ c = Char.ofNat 9 ∨ c = Char.ofNat 10 ∨ c = Char.ofNat 13

/-- Drop leading JSON whitespace. -/
def skipWs : List Char → List Char
  | [] => []
  | c :: rest => if isWs c then skipWs rest else c :: rest

/-- Longest digit run at the head of the list, and the remainder
(the semantics of a greedy regex digit scan). -/
def takeDigits : List Char → List Char × List Char
  | [] => ([], [])
  | c :: rest =>
    if c.isDigit then
      let p := takeDigits rest
      (c :: p.1, p.2)
    else ([], c :: rest)

/-- Numeric value of a digit run. -/
def natOfDigits (l : List Char) : Nat :=
  l.foldl (fun a c => a * 10 + (c.toNat - 48)) 0

/-- Decoding of the simple JSON string escapes. -/
def escMap (c : Char) : Option Char :=
  if c = '"' then some '"'
  else if c = '\\' then some '\\'
  else if c = '/' then some '/'
  else if c = 'b' then some (Char.ofNat 8)
  else if c = 'f' then some (Char.ofNat 12)
  else if c = 'n' then some (Char.ofNat 10)
  else if c = 'r' then some (Char.ofNat 13)
  else if c = 't' then some (Char.ofNat 9)
  else none

/-- Parse the body of a JSON string literal (the opening quote already
consumed): returns the decoded characters and the input following the
closing quote. -/
def parseStringBody : List Char → Option (List Char × List Char)
  | [] => none
  | c :: rest =>
    if c = '"' then some ([], rest)
    else if c = '\\' then
      match rest with
      | [] => none
      | e :: rest2 =>
        match escMap e with
        | some ec => (parseStringBody rest2).map fun p => (ec :: p.1, p.2)
        | none => none
    else if 32 ≤ c.toNat then
      (parseStringBody rest).map fun p => (c :: p.1, p.2)
    else none

/-- Parse a JSON unsigned integer numeral: a nonempty digit run with no
leading zero (except the numeral `0` itself). -/
def parseNat (l : List Char) : Option (Nat × List Char) :=
  let p := takeDigits l
  if p.1 = [] then none
  else if p.1.head? = some '0' ∧ 2 ≤ p.1.length then none
  else some (natOfDigits p.1, p.2)

mutual

/-- Parse one JSON value.  The fuel argument strictly decreases on every
recursive call; any fuel at least the input length is enough, since each
nesting level consumes input. -/
def parseVal : Nat → List Char → Option (Json × List Char)
  | 0, _ => none
  | f + 1, l =>
    match skipWs l with
    | [] => none
    | c :: rest =>
      if c = lbrace then
        let r0 := skipWs rest
        if r0.head? = some rbrace then some (.obj [], r0.tail)
        else (parseMembers f r0).map fun p => (.obj p.1, p.2)
      else if c = '[' then
        let r0 := skipWs rest
        if r0.head? = some ']' then some (.arr [], r0.tail)
        else (parseElems f r0).map fun p => (.arr p.1, p.2)
      else if c = '"' then
        (parseStringBody rest).map fun p => (.str p.1, p.2)
      else if c = 't' then
        if rest.take 3 = ['r', 'u', 'e'] then some (.bool true, rest.drop 3) else none
      else if c = 'f' then
        if rest.take 4 = ['a', 'l', 's', 'e'] then some (.bool false, rest.drop 4) else none
      else if c = 'n' then
        if rest.take 3 = ['u', 'l', 'l'] then some (.null, rest.drop 3) else none
      else if c = '-' then
        (parseNat rest).map fun p => (.num (-(p.1 : Int)), p.2)
      else if c.isDigit then
        (parseNat (c :: rest)).map fun p => (.num (p.1 : Int), p.2)
      else none

/-- Parse the members of a JSON object, positioned at the first key. -/
def parseMembers : Nat → List Char → Option (List (List Char × Json) × List Char)
  | 0, _ => none
  | f + 1, l =>
    match skipWs l with
    | [] => none
    | c :: rest =>
      if c = '"' then
        match parseStringBody rest with
        | none => none
        | some (key, r1) =>
          match skipWs r1 with
          | ':' :: r2 =>
            match parseVal f r2 with
            | none => none
            | some (v, r3) =>
              match skipWs r3 with
              | [] => none
              | d :: r4 =>
                if d = ',' then
                  (parseMembers f r4).map fun p => ((key, v) :: p.1, p.2)
                else if d = rbrace then some ([(key, v)], r4)
                else none
          | _ => none
      else none

/-- Parse the elements of a JSON array, positioned at the first element. -/
def parseElems : Nat → List Char → Option (List Json × List Char)
  | 0, _ => none
  | f + 1, l =>
    match parseVal f l with
    | none => none
    | some (v, r) =>
      match skipWs r with
      | [] => none
      | d :: r2 =>
        if d = ',' then
          (parseElems f r2).map fun p => (v :: p.1, p.2)
        else if d = ']' then some ([v], r2)
        else none

end

/-- The behaviour of `JSON.parse`: parse one value, require only
whitespace to remain, otherwise fail (`JSON.parse` throws). -/
def jsonParse (l : List Char) : Option Json :=
  match parseVal (l.length + 1) l with
  | some (v, rest) => if skipWs rest = [] then some v else none
  | none => none

/-- Embedding of the plain `bigIntStringify` of `src/index.js`:
the global regex replace of `:` followed by exactly seventeen digits by
`:` and the seventeen digits wrapped in quotes.  The scan proceeds left
to right; after a match it resumes after the matched digits, exactly as
a global regex replace does.  A colon followed by eighteen or more
digits still matches (the regex has no lookahead), quoting only the
first seventeen digits. -/
def quote17 : List Char → List Char
  | [] => []
  | c :: rest =>
    if c = ':' ∧ (rest.take 17).length = 17 ∧ (rest.take 17).all Char.isDigit then
      ':' :: '"' :: (rest.take 17 ++ '"' :: quote17 (rest.drop 17))
    else c :: quote17 rest
termination_by l => l.length
decreasing_by
  · simp only [List.length_drop, List.length_cons]; omega
  · simp only [List.length_cons]; omega

/-- Whether `pat` is an initial segment of `l` (the test a regex literal
performs at a scan position). -/
def leadsWith : List Char → List Char → Bool
  | [], _ => true
  | _ :: _, [] => false
  | p :: ps, c :: cs => if p = c then leadsWith ps cs else false

/-- The literal `TikTokOrderID:` of the masking pattern. -/
def tiktokLit : List Char :=
  ['T', 'i', 'k', 'T', 'o', 'k', 'O', 'r', 'd', 'e', 'r', 'I', 'D', ':']

/-- The placeholder token `__TIKTOK_PLACEHOLDER_<n>__`. -/
def placeholder (n : Nat) : List Char :=
  ['_', '_', 'T', 'I', 'K', 'T', 'O', 'K', '_', 'P', 'L', 'A', 'C', 'E',
   'H', 'O', 'L', 'D', 'E', 'R', '_'] ++ (Nat.repr n).data ++ ['_', '_']

theorem takeDigits_snd_length_le (l : List Char) : (takeDigits l).2.length ≤ l.length := by
  induction l with
  | nil => simp [takeDigits]
  | cons c rest ih =>
    simp only [takeDigits]
    by_cases h : c.isDigit <;> simp [h]
    omega

/-- The global replace of `TikTokOrderID:` followed by one or more digits
(greedy) by numbered placeholder tokens.  Returns the masked text and the
placeholder/original pairs in match order. -/
def maskScan (n : Nat) : List Char → List Char × List (List Char × List Char)
  | [] => ([], [])
  | c :: rest =>
    if leadsWith tiktokLit (c :: rest) ∧ (takeDigits ((c :: rest).drop tiktokLit.length)).1 ≠ [] then
      let ds := (takeDigits ((c :: rest).drop tiktokLit.length)).1
      let r := (takeDigits ((c :: rest).drop tiktokLit.length)).2
      let rec_result := maskScan (n + 1) r
      (placeholder n ++ rec_result.1, (placeholder n, tiktokLit ++ ds) :: rec_result.2)
    else
      let rec_result := maskScan n rest
      (c :: rec_result.1, rec_result.2)
termination_by l => l.length
decreasing_by
  · have h1 := takeDigits_snd_length_le ((c :: rest).drop tiktokLit.length)
    have h2 : tiktokLit.length = 14 := rfl
    rw [h2] at h1
    simp only [h2, List.length_drop, List.length_cons] at h1 ⊢
    omega
  · simp only [List.length_cons]; omega

/-- Replace the first occurrence of `pat` in `l` by `repl` (the behaviour
of the string-pattern `replace` used to restore placeholders); if `pat`
does not occur, `l` is returned unchanged. -/
def replaceFirst (pat repl : List Char) : List Char → List Char
  | [] => []
  | c :: rest =>
    if leadsWith pat (c :: rest) then repl ++ (c :: rest).drop pat.length
    else c :: replaceFirst pat repl rest

/-- Embedding of the masking `bigIntStringify` variant
(`src/unnamed/part_002` first document, `src/unnamed/part_001` second
document): mask every `TikTokOrderID:<digits>` occurrence with a unique
placeholder, apply the colon/seventeen-digit quote rewrite, then restore
the originals in insertion order (each restore replaces the first — and
only — occurrence of its placeholder). -/
def bigIntStringifyMasked (l : List Char) : List Char :=
  let m := maskScan 0 l
  (m.2).foldl (fun acc pr => replaceFirst pr.1 pr.2 acc) (quote17 m.1)

/-! ## The request pipeline -/

/-- The five HTTP verbs of the client surface. -/
inductive HttpMethod where
  | GET | POST | PUT | PATCH | DELETE
deriving DecidableEq

/-- The request descriptor handed to the transport: the argument object
of a `_request` call (`url`, `method`, query parameters, body, and the
explicit `json` flag passed by the body verbs). -/
structure ReqDescriptor where
  url : List Char
  method : HttpMethod
  qs : List (List Char × List Char) := []
  body : List (List Char × List Char) := []
  json : Bool := false
deriving DecidableEq

/-- A transport failure as observed by the catch handler: carries the
HTTP status when the failure is an HTTP error response (`err.statusCode`
in `src/index.js`, `err.response.status` in the axios variants), and
`none` for a network error or a thrown non-HTTP error. -/
structure JsError where
  status : Option Nat
deriving DecidableEq

/-- Outcome of one transport attempt: the raw response text on success,
or a failure. -/
inductive TransportOutcome where
  | ok (body : List Char)
  | err (e : JsError)

/-- What a verb hands back on success: a structured value when the
response text decoded, or the raw text when it did not (the transport
json mode leaves an undecodable body as text). -/
inductive JsOut where
  | parsed (j : Json)
  | raw (s : List Char)

/-- The failures a verb call can settle with. -/
inductive CallError where
  | missingUrl
  | missingBody
  | transport (e : JsError)
  | decode
deriving DecidableEq

/-- Settlement of one verb call. -/
inductive CallResult where
  | ok (v : JsOut)
  | err (e : CallError)

/-- Observable pipeline events: transport invocations (with the
descriptor issued) and retry-delay suspensions (with the delay in
milliseconds). -/
inductive PipelineEvent where
  | call (d : ReqDescriptor)
  | delayMs (n : Nat)

/-- The descriptors of the transport invocations in a trace. -/
def callsOf : List PipelineEvent → List ReqDescriptor
  | [] => []
  | .call d :: rest => d :: callsOf rest
  | .delayMs _ :: rest => callsOf rest

/-- Whether a trace contains a delay suspension. -/
def hasDelay : List PipelineEvent → Bool
  | [] => false
  | .delayMs _ :: _ => true
  | .call _ :: rest => hasDelay rest

/-- Transport-level decoding (`json: true` of request-promise, or the
axios `response.data`): the body parsed as JSON, or left as raw text
when it does not parse. -/
def decodePlain (b : List Char) : JsOut :=
  match jsonParse b with
  | some j => .parsed j
  | none => .raw b

/-- Embedding of `maybeParse`: with `stringifyBigInt` enabled the raw
text is rewritten by `bigIntStringify` and then `JSON.parse`d, a parse
failure being thrown as a decode error; disabled, the already
transport-decoded response passes through unchanged. -/
def maybeParse (stringifyBigInt : Bool) (b : List Char) : Except CallError JsOut :=
  if stringifyBigInt then
    match jsonParse (quote17 b) with
    | some j => .ok (.parsed j)
    | none => .error .decode
  else .ok (decodePlain b)

/-- Embedding of the verb pipeline of `src/index.js` (the same shape as
both `src/unnamed/part_002` documents): issue the first attempt with
descriptor `d0`; on success run the first-attempt processing `proc`
(whose thrown decode error reaches the catch handler, carries no HTTP
status, and is therefore re-thrown without retry); on failure, the
`delayIfLimitReached` handler retries once with descriptor `dR` after a
fixed 2500 ms delay when the status is 429 — but then unconditionally
re-throws: a successful retry has its result discarded and the original
429 error propagates, a failed retry propagates its own failure.  Any
non-429 failure propagates immediately.  The transport stub `t` is
indexed by attempt number. -/
def runCall (proc : List Char → Except CallError JsOut) (d0 dR : ReqDescriptor)
    (t : Nat → TransportOutcome) : CallResult × List PipelineEvent :=
  match t 0 with
  | .ok b =>
    match proc b with
    | .ok v => (.ok v, [.call d0])
    | .error e => (.err e, [.call d0])
  | .err e =>
    if e.status = some 429 then
      match t 1 with
      | .ok _ => (.err (.transport e), [.call d0, .delayMs 2500, .call dR])
      | .err e2 => (.err (.transport e2), [.call d0, .delayMs 2500, .call dR])
    else (.err (.transport e), [.call d0])

/-- Embedding of the verb pipeline of the third `src/unnamed/part_001`
document, whose `delayIfLimitReached` ends the 429 branch with
`return fn()`: the successful retry's transport-decoded body is returned
to the caller, and a failed retry propagates its own failure.  The retry
result is not passed through `maybeParse` in any verb of that variant. -/
def runCallRecover (proc : List Char → Except CallError JsOut) (d0 dR : ReqDescriptor)
    (t : Nat → TransportOutcome) : CallResult × List PipelineEvent :=
  match t 0 with
  | .ok b =>
    match proc b with
    | .ok v => (.ok v, [.call d0])
    | .error e => (.err e, [.call d0])
  | .err e =>
    if e.status = some 429 then
      match t 1 with
      | .ok b2 => (.ok (decodePlain b2), [.call d0, .delayMs 2500, .call dR])
      | .err e2 => (.err (.transport e2), [.call d0, .delayMs 2500, .call dR])
    else (.err (.transport e), [.call d0])

/-- Embedding of `get`: empty-url guard, GET descriptor with the query
map, first attempt post-processed by `maybeParse`, retry re-issuing the
identical descriptor. -/
def billbeeGet (sbi : Bool) (url : List Char) (qs : List (List Char × List Char))
    (t : Nat → TransportOutcome) : CallResult × List PipelineEvent :=
  if url = [] then (.err .missingUrl, [])
  else runCall (maybeParse sbi) ⟨url, .GET, qs, [], false⟩ ⟨url, .GET, qs, [], false⟩ t

/-- Embedding of `post`: empty-url and empty-body guards, POST descriptor
with `json: true`, no `maybeParse` on the response, retry re-issuing the
identical descriptor. -/
def billbeePost (url : List Char) (body : List (List Char × List Char))
    (t : Nat → TransportOutcome) : CallResult × List PipelineEvent :=
  if url = [] then (.err .missingUrl, [])
  else if body = [] then (.err .missingBody, [])
  else runCall (fun b => .ok (decodePlain b)) ⟨url, .POST, [], body, true⟩
    ⟨url, .POST, [], body, true⟩ t

/-- Embedding of `put`: empty-url guard, PUT descriptor with `json: true`,
no `maybeParse` on the response; the retry descriptor carries method
POST, exactly as written in `src/index.js` and both `src/unnamed/part_002`
documents. -/
def billbeePut (url : List Char) (body : List (List Char × List Char))
    (t : Nat → TransportOutcome) : CallResult × List PipelineEvent :=
  if url = [] then (.err .missingUrl, [])
  else runCall (fun b => .ok (decodePlain b)) ⟨url, .PUT, [], body, true⟩
    ⟨url, .POST, [], body, true⟩ t

/-- Embedding of `patch` (present in the `src/unnamed/part_002`
documents): empty-url guard, PATCH descriptor, no `maybeParse` on the
response, retry re-issuing the identical descriptor. -/
def billbeePatch (url : List Char) (body : List (List Char × List Char))
    (t : Nat → TransportOutcome) : CallResult × List PipelineEvent :=
  if url = [] then (.err .missingUrl, [])
  else runCall (fun b => .ok (decodePlain b)) ⟨url, .PATCH, [], body, true⟩
    ⟨url, .PATCH, [], body, true⟩ t

/-- Embedding of `del`: empty-url guard, DELETE descriptor with no query
and no body, first attempt post-processed by `maybeParse`, retry
re-issuing the identical descriptor. -/
def billbeeDel (sbi : Bool) (url : List Char)
    (t : Nat → TransportOutcome) : CallResult × List PipelineEvent :=
  if url = [] then (.err .missingUrl, [])
  else runCall (maybeParse sbi) ⟨url, .DELETE, [], [], false⟩ ⟨url, .DELETE, [], [], false⟩ t

/-! ## Client construction -/

/-- The configuration object of the exported factory function. -/
structure ClientConfig where
  apiKey : String := ""
  user : String := ""
  pass : String := ""
  version : String := "v1"
deriving DecidableEq

/-- Embedding of the exported factory's synchronous credential
validation: the three credential fields are checked for emptiness in
order and the first empty one is reported by name in a thrown error;
no transport machinery is touched during construction. -/
def mkClient (cfg : ClientConfig) : Except String ClientConfig :=
  if cfg.apiKey = "" then .error ("Missing apiKey")
  else if cfg.user = "" then .error ("Missing user")
  else if cfg.pass = "" then .error ("Missing pass")
  else .ok cfg

/-! ## Character facts -/

/-- A character that passes through a JSON string body unchanged. -/
def plainChar (c : Char) : Prop := c ≠ '"' ∧ c ≠ '\\' ∧ 32 ≤ c.toNat

theorem digit_toNat {c : Char} (h : c.isDigit = true) : 48 ≤ c.toNat ∧ c.toNat ≤ 57 := by
  simp [Char.isDigit] at h
  exact ⟨h.1, h.2⟩

theorem digit_ne_of_toNat {c d : Char} (h : c.isDigit = true)
    (hd : Char.toNat d < 48 ∨ 57 < Char.toNat d) : c ≠ d := by
  obtain ⟨h1, h2⟩ := digit_toNat h
  intro he
  subst he
  omega

theorem digit_not_ws {c : Char} (h : c.isDigit = true) : isWs c = false := by
  have h32 := digit_ne_of_toNat h (d := ' ') (by decide)
  have h9 := digit_ne_of_toNat h (d := Char.ofNat 9) (by decide)
  have h10 := digit_ne_of_toNat h (d := Char.ofNat 10) (by decide)
  have h13 := digit_ne_of_toNat h (d := Char.ofNat 13) (by decide)
  simp [isWs, h32, h9, h10, h13]

theorem digit_plain {c : Char} (h : c.isDigit = true) : plainChar c := by
  obtain ⟨h1, h2⟩ := digit_toNat h
  exact ⟨digit_ne_of_toNat h (by decide), digit_ne_of_toNat h (by decide), by omega⟩

theorem skipWs_cons_not_ws {c : Char} (h : isWs c = false) (r : List Char) :
    skipWs (c :: r) = c :: r := by
  simp [skipWs, h]

theorem skipWs_digit {c : Char} (h : c.isDigit = true) (r : List Char) :
    skipWs (c :: r) = c :: r :=
  skipWs_cons_not_ws (digit_not_ws h) r

theorem parseStringBody_plain (s : List Char) (rest : List Char)
    (hs : ∀ c ∈ s, plainChar c) :
    parseStringBody (s ++ '"' :: rest) = some (s, rest) := by
  induction s with
  | nil =>
    rw [List.nil_append, parseStringBody.eq_def]
    simp
  | cons c cs ih =>
    obtain ⟨h1, h2, h3⟩ := hs c (List.mem_cons_self c cs)
    have ih2 := ih fun d hd => hs d (List.mem_cons_of_mem c hd)
    rw [List.cons_append, parseStringBody.eq_def]
    simp [h1, h2, h3, ih2]

theorem takeDigits_append (ds : List Char) (c : Char) (r : List Char)
    (hd : ds.all Char.isDigit) (hc : c.isDigit = false) :
    takeDigits (ds ++ c :: r) = (ds, c :: r) := by
  induction ds with
  | nil => simp [takeDigits, hc]
  | cons d ds' ih =>
    simp only [List.all_cons, Bool.and_eq_true] at hd
    have ih2 := ih hd.2
    rw [List.cons_append, takeDigits]
    simp [hd.1, ih2]

theorem parseNat_digits (ds : List Char) (c : Char) (r : List Char)
    (hne : ds ≠ []) (hd : ds.all Char.isDigit) (hc : c.isDigit = false)
    (h0 : ¬(ds.head? = some '0' ∧ 2 ≤ ds.length)) :
    parseNat (ds ++ c :: r) = some (natOfDigits ds, c :: r) := by
  simp only [parseNat, takeDigits_append ds c r hd hc, if_neg hne, if_neg h0]

theorem parseVal_str (f : Nat) (s rest : List Char) (hs : ∀ c ∈ s, plainChar c) :
    parseVal (f + 1) ('"' :: (s ++ '"' :: rest)) = some (Json.str s, rest) := by
  simp only [parseVal]
  rw [skipWs_cons_not_ws (by decide)]
  simp [show ('"' : Char) ≠ lbrace from by decide, show ('"' : Char) ≠ '[' from by decide,
    parseStringBody_plain s rest hs]

theorem parseVal_digits (f : Nat) (ds : List Char) (c : Char) (rest : List Char)
    (hne : ds ≠ []) (hd : ds.all Char.isDigit) (hc : c.isDigit = false)
    (h0 : ¬(ds.head? = some '0' ∧ 2 ≤ ds.length)) :
    parseVal (f + 1) (ds ++ c :: rest) = some (Json.num (natOfDigits ds), c :: rest) := by
  match ds, hne with
  | d :: ds2, _ =>
    have hd1 : d.isDigit = true := by
      simp only [List.all_cons, Bool.and_eq_true] at hd
      exact hd.1
    have n1 : d ≠ lbrace := digit_ne_of_toNat hd1 (by decide)
    have n2 : d ≠ '[' := digit_ne_of_toNat hd1 (by decide)
    have n3 : d ≠ '"' := digit_ne_of_toNat hd1 (by decide)
    have n4 : d ≠ 't' := digit_ne_of_toNat hd1 (by decide)
    have n5 : d ≠ 'f' := digit_ne_of_toNat hd1 (by decide)
    have n6 : d ≠ 'n' := digit_ne_of_toNat hd1 (by decide)
    have n7 : d ≠ '-' := digit_ne_of_toNat hd1 (by decide)
    have hpn : parseNat (d :: (ds2 ++ c :: rest)) = some (natOfDigits (d :: ds2), c :: rest) := by
      rw [show d :: (ds2 ++ c :: rest) = (d :: ds2) ++ c :: rest from rfl]
      exact parseNat_digits (d :: ds2) c rest (by simp) hd hc h0
    rw [List.cons_append]
    simp only [parseVal]
    rw [skipWs_digit hd1]
    dsimp only []
    rw [if_neg n1, if_neg n2, if_neg n3, if_neg n4, if_neg n5, if_neg n6, if_neg n7, if_pos hd1,
      hpn]
    simp

theorem parseMembers_key (f : Nat) (key r2 : List Char) (hk : ∀ c ∈ key, plainChar c) :
    parseMembers (f + 1) ('"' :: (key ++ '"' :: ':' :: r2)) =
      match parseVal f r2 with
      | none => none
      | some (v, r3) =>
        match skipWs r3 with
        | [] => none
        | d :: r4 =>
          if d = ',' then (parseMembers f r4).map fun p => ((key, v) :: p.1, p.2)
          else if d = rbrace then some ([(key, v)], r4)
          else none := by
  simp only [parseMembers]
  rw [skipWs_cons_not_ws (by decide)]
  dsimp only []
  rw [parseStringBody_plain key (':' :: r2) hk]
  dsimp only []
  rw [skipWs_cons_not_ws (by decide)]
  rfl

theorem parseVal_obj_eq (f : Nat) (rest2 : List Char) :
    parseVal (f + 1) (lbrace :: '"' :: rest2) =
      (parseMembers f ('"' :: rest2)).map fun p => (Json.obj p.1, p.2) := by
  simp only [parseVal]
  rw [skipWs_cons_not_ws (by decide)]
  dsimp only []
  rw [skipWs_cons_not_ws (by decide)]
  rfl

theorem quote17_nil : quote17 [] = [] := by simp [quote17]

theorem quote17_cons_ne {c : Char} (rest : List Char) (h : c ≠ ':') :
    quote17 (c :: rest) = c :: quote17 rest := by
  rw [quote17]
  rw [if_neg fun hx => h hx.1]

theorem quote17_append_nocolon (s rest : List Char) (h : ∀ c ∈ s, c ≠ ':') :
    quote17 (s ++ rest) = s ++ quote17 rest := by
  induction s with
  | nil => simp
  | cons c cs ih =>
    rw [List.cons_append, quote17_cons_ne _ (h c (List.mem_cons_self c cs)),
      ih fun d hd => h d (List.mem_cons_of_mem c hd), List.cons_append]

theorem quote17_colon_match (ds rest : List Char) (h17 : ds.length = 17)
    (hd : ds.all Char.isDigit) :
    quote17 (':' :: (ds ++ rest)) = ':' :: '"' :: (ds ++ '"' :: quote17 rest) := by
  have ht : (ds ++ rest).take 17 = ds := by
    rw [← h17]
    exact List.take_left ds rest
  have hdr : (ds ++ rest).drop 17 = rest := by
    rw [← h17]
    exact List.drop_left ds rest
  rw [quote17]
  rw [if_pos ⟨rfl, by rw [ht, h17], by rw [ht]; exact hd⟩, ht, hdr]

theorem quote17_colon_noquote (rest : List Char)
    (h : ¬(((rest.take 17).length = 17) ∧ (rest.take 17).all Char.isDigit)) :
    quote17 (':' :: rest) = ':' :: quote17 rest := by
  rw [quote17]
  rw [if_neg fun hx => h ⟨hx.2.1, hx.2.2⟩]

theorem leadsWith_self_append (p t : List Char) : leadsWith p (p ++ t) = true := by
  induction p with
  | nil => simp [leadsWith]
  | cons c cs ih => simp [leadsWith, ih]

theorem leadsWith_cons_ne {p c : Char} (ps cs : List Char) (h : p ≠ c) :
    leadsWith (p :: ps) (c :: cs) = false := by
  simp [leadsWith, h]

theorem maskScan_cons_ne (n : Nat) {c : Char} (rest : List Char) (h : c ≠ 'T') :
    maskScan n (c :: rest) = (c :: (maskScan n rest).1, (maskScan n rest).2) := by
  have hl : leadsWith tiktokLit (c :: rest) = false := by
    rw [show tiktokLit = 'T' :: tiktokLit.tail from rfl]
    exact leadsWith_cons_ne _ _ (Ne.symm h)
  rw [maskScan]
  rw [if_neg fun hx => by rw [hl] at hx; exact absurd hx.1 (by simp)]

theorem maskScan_no_t (n : Nat) (l : List Char) (h : ∀ c ∈ l, c ≠ 'T') :
    maskScan n l = (l, []) := by
  induction l with
  | nil => simp [maskScan]
  | cons c cs ih =>
    rw [maskScan_cons_ne n cs (h c (List.mem_cons_self c cs)),
      ih fun d hd => h d (List.mem_cons_of_mem c hd)]

theorem maskScan_append_no_t (n : Nat) (s rest : List Char) (h : ∀ c ∈ s, c ≠ 'T') :
    maskScan n (s ++ rest) = (s ++ (maskScan n rest).1, (maskScan n rest).2) := by
  induction s with
  | nil => simp
  | cons c cs ih =>
    rw [List.cons_append, maskScan_cons_ne n _ (h c (List.mem_cons_self c cs)),
      ih fun d hd => h d (List.mem_cons_of_mem c hd), List.cons_append]

theorem maskScan_match (n : Nat) (vds : List Char) (c : Char) (rest' : List Char)
    (hne : vds ≠ []) (hd : vds.all Char.isDigit) (hc : c.isDigit = false) :
    maskScan n (tiktokLit ++ (vds ++ c :: rest')) =
      (placeholder n ++ (maskScan (n + 1) (c :: rest')).1,
       (placeholder n, tiktokLit ++ vds) :: (maskScan (n + 1) (c :: rest')).2) := by
  have hl : leadsWith tiktokLit (tiktokLit ++ (vds ++ c :: rest')) = true :=
    leadsWith_self_append _ _
  have hdrop : (tiktokLit ++ (vds ++ c :: rest')).drop tiktokLit.length = vds ++ c :: rest' :=
    List.drop_left _ _
  have htd : takeDigits (vds ++ c :: rest') = (vds, c :: rest') :=
    takeDigits_append vds c rest' hd hc
  rw [show tiktokLit ++ (vds ++ c :: rest') = 'T' :: (tiktokLit.tail ++ (vds ++ c :: rest'))
    from rfl] at hl hdrop ⊢
  rw [maskScan]
  rw [if_pos ⟨hl, by rw [hdrop, htd]; exact hne⟩]
  rw [hdrop, htd]

theorem replaceFirst_cons_ne (pat repl : List Char) {c : Char} (rest : List Char)
    (h : leadsWith pat (c :: rest) = false) :
    replaceFirst pat repl (c :: rest) = c :: replaceFirst pat repl rest := by
  rw [replaceFirst]
  rw [if_neg (by rw [h]; simp)]

theorem replaceFirst_here (p : Char) (ps repl tail : List Char) :
    replaceFirst (p :: ps) repl ((p :: ps) ++ tail) = repl ++ tail := by
  have hl : leadsWith (p :: ps) (p :: (ps ++ tail)) = true := leadsWith_self_append (p :: ps) tail
  have hdl : List.drop (p :: ps).length (p :: (ps ++ tail)) = tail := List.drop_left (p :: ps) tail
  rw [show (p :: ps) ++ tail = p :: (ps ++ tail) from rfl]
  rw [replaceFirst]
  rw [if_pos hl]
  rw [hdl]

/-! ## Pipeline lemmas -/

theorem runCall_throttle_retry_err (proc : List Char → Except CallError JsOut)
    (d0 dR : ReqDescriptor) (t : Nat → TransportOutcome) (e1 e2 : JsError)
    (h0 : t 0 = .err e1) (he : e1.status = some 429) (h1 : t 1 = .err e2) :
    runCall proc d0 dR t = (.err (.transport e2), [.call d0, .delayMs 2500, .call dR]) := by
  simp only [runCall, h0, h1]
  rw [if_pos he]

theorem runCall_throttle_retry_ok (proc : List Char → Except CallError JsOut)
    (d0 dR : ReqDescriptor) (t : Nat → TransportOutcome) (e1 : JsError) (b : List Char)
    (h0 : t 0 = .err e1) (he : e1.status = some 429) (h1 : t 1 = .ok b) :
    runCall proc d0 dR t = (.err (.transport e1), [.call d0, .delayMs 2500, .call dR]) := by
  simp only [runCall, h0, h1]
  rw [if_pos he]

theorem runCall_no_throttle (proc : List Char → Except CallError JsOut)
    (d0 dR : ReqDescriptor) (t : Nat → TransportOutcome) (e : JsError)
    (h0 : t 0 = .err e) (he : e.status ≠ some 429) :
    runCall proc d0 dR t = (.err (.transport e), [.call d0]) := by
  simp only [runCall, h0]
  rw [if_neg he]

theorem runCall_first_ok (proc : List Char → Except CallError JsOut)
    (d0 dR : ReqDescriptor) (t : Nat → TransportOutcome) (b : List Char) (v : JsOut)
    (h0 : t 0 = .ok b) (hp : proc b = .ok v) :
    runCall proc d0 dR t = (.ok v, [.call d0]) := by
  simp only [runCall, h0, hp]

theorem runCall_calls_le_two (proc : List Char → Except CallError JsOut)
    (d0 dR : ReqDescriptor) (t : Nat → TransportOutcome) :
    (callsOf (runCall proc d0 dR t).2).length ≤ 2 := by
  unfold runCall
  cases h0 : t 0 with
  | ok b => cases hp : proc b <;> simp [hp, callsOf]
  | err e =>
    by_cases he : e.status = some 429
    · cases h1 : t 1 <;> simp [he, h1, callsOf]
    · simp [he, callsOf]

/-! ## Concrete fixtures -/

/-- The concrete path used by the closed scenario theorems. -/
def urlOrders : List Char := ['o', 'r', 'd', 'e', 'r', 's']

/-- A concrete nonempty request body. -/
def bodyKV : List (List Char × List Char) := [(['k'], ['v'])]

/-- A concrete successful response text. -/
def okBody : List Char := lbrace :: '"' :: 'o' :: 'k' :: '"' :: ':' :: '1' :: [rbrace]

/-- A 429 rate-limit error. -/
def err429 : JsError := ⟨some 429⟩

/-- Transport stub: 429 on the first attempt, success on the second. -/
def stub429ok : Nat → TransportOutcome := fun n => if n = 0 then .err err429 else .ok okBody

/-! ## Claims -/

/-- Claim C1: the spec says that when the first transport attempt returns
HTTP 429 and the single delayed retry succeeds, the pipeline returns the
retried call's decoded body (not the original 429 error), with the
transport invoked exactly twice.  On the `src/index.js` pipeline this
fails: the theorem evaluates the GET pipeline at the failing input (429
then 200) and shows the transport is indeed invoked twice with equal
descriptors and one delay, but the settlement is the ORIGINAL 429
transport error — the retried body is discarded by the unconditional
re-throw in `delayIfLimitReached`.  The second conjunct shows the
repository's own recovering variant (third `src/unnamed/part_001`
document, `return fn()`) does return the retried call's
transport-decoded body, which is the behaviour the claim describes. -/
theorem claim1_retry_result_discarded :
    (billbeeGet true urlOrders [] stub429ok
      = (.err (.transport err429),
         [.call ⟨urlOrders, .GET, [], [], false⟩, .delayMs 2500,
          .call ⟨urlOrders, .GET, [], [], false⟩]))
    ∧ (runCallRecover (maybeParse true) ⟨urlOrders, .GET, [], [], false⟩
        ⟨urlOrders, .GET, [], [], false⟩ stub429ok
      = (.ok (decodePlain okBody),
         [.call ⟨urlOrders, .GET, [], [], false⟩, .delayMs 2500,
          .call ⟨urlOrders, .GET, [], [], false⟩])) :=
  ⟨rfl, rfl⟩

/-- Claim C2: the spec says every verb's retry re-issues the exact same
request descriptor.  This fails for `put`: the theorem computes the
transport traces under a 429-then-success stub and shows `put`'s second
descriptor carries method POST while the first carries PUT (same url,
body and json flag), whereas GET, POST, PATCH and DELETE all re-issue
descriptors identical to their originals. -/
theorem claim2_put_retry_method_post :
    (callsOf (billbeePut urlOrders bodyKV stub429ok).2
      = [⟨urlOrders, .PUT, [], bodyKV, true⟩, ⟨urlOrders, .POST, [], bodyKV, true⟩])
    ∧ HttpMethod.PUT ≠ HttpMethod.POST
    ∧ (callsOf (billbeeGet true urlOrders [] stub429ok).2
      = [⟨urlOrders, .GET, [], [], false⟩, ⟨urlOrders, .GET, [], [], false⟩])
    ∧ (callsOf (billbeePost urlOrders bodyKV stub429ok).2
      = [⟨urlOrders, .POST, [], bodyKV, true⟩, ⟨urlOrders, .POST, [], bodyKV, true⟩])
    ∧ (callsOf (billbeePatch urlOrders bodyKV stub429ok).2
      = [⟨urlOrders, .PATCH, [], bodyKV, true⟩, ⟨urlOrders, .PATCH, [], bodyKV, true⟩])
    ∧ (callsOf (billbeeDel true urlOrders stub429ok).2
      = [⟨urlOrders, .DELETE, [], [], false⟩, ⟨urlOrders, .DELETE, [], [], false⟩]) :=
  ⟨rfl, by decide, rfl, rfl, rfl, rfl⟩

/-- Claim C6: if both the first attempt and the single delayed retry fail
with HTTP 429, every verb's pipeline fails with the second attempt's
429-derived error and the transport is invoked exactly twice; moreover,
for any transport behaviour whatsoever no verb ever invokes the
transport a third time. -/
theorem claim6_double_throttle (sbi : Bool) (url : List Char)
    (qs body : List (List Char × List Char)) (t : Nat → TransportOutcome) (e1 e2 : JsError)
    (hurl : url ≠ []) (hbody : body ≠ [])
    (h0 : t 0 = .err e1) (h1 : t 1 = .err e2)
    (he1 : e1.status = some 429) (_he2 : e2.status = some 429) :
    ((billbeeGet sbi url qs t).1 = .err (.transport e2)
        ∧ (callsOf (billbeeGet sbi url qs t).2).length = 2)
    ∧ ((billbeePost url body t).1 = .err (.transport e2)
        ∧ (callsOf (billbeePost url body t).2).length = 2)
    ∧ ((billbeePut url body t).1 = .err (.transport e2)
        ∧ (callsOf (billbeePut url body t).2).length = 2)
    ∧ ((billbeePatch url body t).1 = .err (.transport e2)
        ∧ (callsOf (billbeePatch url body t).2).length = 2)
    ∧ ((billbeeDel sbi url t).1 = .err (.transport e2)
        ∧ (callsOf (billbeeDel sbi url t).2).length = 2)
    ∧ (∀ u : Nat → TransportOutcome,
        (callsOf (billbeeGet sbi url qs u).2).length ≤ 2
        ∧ (callsOf (billbeePost url body u).2).length ≤ 2
        ∧ (callsOf (billbeePut url body u).2).length ≤ 2
        ∧ (callsOf (billbeePatch url body u).2).length ≤ 2
        ∧ (callsOf (billbeeDel sbi url u).2).length ≤ 2) := by
  refine ⟨?_, ?_, ?_, ?_, ?_, ?_⟩
  · rw [billbeeGet, if_neg hurl, runCall_throttle_retry_err _ _ _ t e1 e2 h0 he1 h1]
    exact ⟨rfl, rfl⟩
  · rw [billbeePost, if_neg hurl, if_neg hbody,
      runCall_throttle_retry_err _ _ _ t e1 e2 h0 he1 h1]
    exact ⟨rfl, rfl⟩
  · rw [billbeePut, if_neg hurl, runCall_throttle_retry_err _ _ _ t e1 e2 h0 he1 h1]
    exact ⟨rfl, rfl⟩
  · rw [billbeePatch, if_neg hurl, runCall_throttle_retry_err _ _ _ t e1 e2 h0 he1 h1]
    exact ⟨rfl, rfl⟩
  · rw [billbeeDel, if_neg hurl, runCall_throttle_retry_err _ _ _ t e1 e2 h0 he1 h1]
    exact ⟨rfl, rfl⟩
  · intro u
    refine ⟨?_, ?_, ?_, ?_, ?_⟩
    · rw [billbeeGet, if_neg hurl]
      exact runCall_calls_le_two _ _ _ u
    · rw [billbeePost, if_neg hurl, if_neg hbody]
      exact runCall_calls_le_two _ _ _ u
    · rw [billbeePut, if_neg hurl]
      exact runCall_calls_le_two _ _ _ u
    · rw [billbeePatch, if_neg hurl]
      exact runCall_calls_le_two _ _ _ u
    · rw [billbeeDel, if_neg hurl]
      exact runCall_calls_le_two _ _ _ u

/-- Witness for C6 at a concrete double-429 stub on GET `orders`. -/
theorem claim6_witness :
    (billbeeGet true urlOrders [] (fun _ => .err err429)).1 = .err (.transport err429)
    ∧ (callsOf (billbeeGet true urlOrders [] (fun _ => .err err429)).2).length = 2 :=
  (claim6_double_throttle true urlOrders [] bodyKV (fun _ => .err err429) err429 err429
    (by decide) (by decide) rfl rfl rfl rfl).1

/-- Claim C7: a first-attempt failure whose status is not 429 (an HTTP
error such as 500, or a network failure carrying no status) propagates
immediately on every verb: the settlement is exactly that transport
error and the trace is a single call event — no delay event, no retry. -/
theorem claim7_non_throttle_immediate (sbi : Bool) (url : List Char)
    (qs body : List (List Char × List Char)) (t : Nat → TransportOutcome) (e : JsError)
    (hurl : url ≠ []) (hbody : body ≠ [])
    (h0 : t 0 = .err e) (he : e.status ≠ some 429) :
    billbeeGet sbi url qs t = (.err (.transport e), [.call ⟨url, .GET, qs, [], false⟩])
    ∧ billbeePost url body t = (.err (.transport e), [.call ⟨url, .POST, [], body, true⟩])
    ∧ billbeePut url body t = (.err (.transport e), [.call ⟨url, .PUT, [], body, true⟩])
    ∧ billbeePatch url body t = (.err (.transport e), [.call ⟨url, .PATCH, [], body, true⟩])
    ∧ billbeeDel sbi url t = (.err (.transport e), [.call ⟨url, .DELETE, [], [], false⟩]) := by
  refine ⟨?_, ?_, ?_, ?_, ?_⟩
  · rw [billbeeGet, if_neg hurl, runCall_no_throttle _ _ _ t e h0 he]
  · rw [billbeePost, if_neg hurl, if_neg hbody, runCall_no_throttle _ _ _ t e h0 he]
  · rw [billbeePut, if_neg hurl, runCall_no_throttle _ _ _ t e h0 he]
  · rw [billbeePatch, if_neg hurl, runCall_no_throttle _ _ _ t e h0 he]
  · rw [billbeeDel, if_neg hurl, runCall_no_throttle _ _ _ t e h0 he]

/-- Witness for C7 at a concrete 500-failing stub on GET and POST. -/
theorem claim7_witness :
    billbeeGet true urlOrders [] (fun _ => .err ⟨some 500⟩)
      = (.err (.transport ⟨some 500⟩), [.call ⟨urlOrders, .GET, [], [], false⟩])
    ∧ billbeePost urlOrders bodyKV (fun _ => .err ⟨some 500⟩)
      = (.err (.transport ⟨some 500⟩), [.call ⟨urlOrders, .POST, [], bodyKV, true⟩]) :=
  ⟨(claim7_non_throttle_immediate true urlOrders [] bodyKV (fun _ => .err ⟨some 500⟩) ⟨some 500⟩
      (by decide) (by decide) rfl (by decide)).1,
   (claim7_non_throttle_immediate true urlOrders [] bodyKV (fun _ => .err ⟨some 500⟩) ⟨some 500⟩
      (by decide) (by decide) rfl (by decide)).2.1⟩

/-- Claim C8: construction validates the three credential fields in
order (apiKey, user, pass), failing synchronously with an error naming
the first empty field — which is therefore a genuinely missing field —
and succeeds exactly when all three are non-empty.  Construction is a
pure check: no transport machinery is involved. -/
theorem claim8_credential_validation (cfg : ClientConfig) :
    (cfg.apiKey = "" → mkClient cfg = .error ("Missing apiKey"))
    ∧ (cfg.apiKey ≠ "" → cfg.user = "" → mkClient cfg = .error ("Missing user"))
    ∧ (cfg.apiKey ≠ "" → cfg.user ≠ "" → cfg.pass = "" → mkClient cfg = .error ("Missing pass"))
    ∧ (cfg.apiKey ≠ "" → cfg.user ≠ "" → cfg.pass ≠ "" → mkClient cfg = .ok cfg) := by
  refine ⟨?_, ?_, ?_, ?_⟩
  · intro h
    simp [mkClient, h]
  · intro h1 h2
    simp [mkClient, h1, h2]
  · intro h1 h2 h3
    simp [mkClient, h1, h2, h3]
  · intro h1 h2 h3
    simp [mkClient, h1, h2, h3]

/-- Witness for C8 at four concrete configurations. -/
theorem claim8_witness :
    mkClient ⟨"", "u", "p", "v1"⟩ = .error ("Missing apiKey")
    ∧ mkClient ⟨"k", "", "p", "v1"⟩ = .error ("Missing user")
    ∧ mkClient ⟨"k", "u", "", "v1"⟩ = .error ("Missing pass")
    ∧ mkClient ⟨"k", "u", "p", "v1"⟩ = .ok ⟨"k", "u", "p", "v1"⟩ :=
  ⟨(claim8_credential_validation _).1 rfl,
   (claim8_credential_validation _).2.1 (by decide) rfl,
   (claim8_credential_validation _).2.2.1 (by decide) (by decide) rfl,
   (claim8_credential_validation _).2.2.2 (by decide) (by decide) (by decide)⟩

/-- Counterexample to C9 as stated: a POST whose path AND body are both
empty fails with the missing-url error, not the missing-body error the
claim asserts for every empty-body POST. -/
theorem claim9_counterexample :
    (billbeePost [] [] (fun _ => .ok okBody)).1 = .err .missingUrl
    ∧ CallError.missingUrl ≠ CallError.missingBody :=
  ⟨rfl, by decide⟩

/-- Claim C9 (amended): every verb call with an empty path fails with
the missing-path error and an empty trace (zero transport invocations),
and every POST with a non-empty path and an empty body fails with the
missing-body error and an empty trace; the path guard takes precedence
over the body guard. -/
theorem claim9_amended_guards (sbi : Bool) (url : List Char)
    (qs body : List (List Char × List Char)) (t : Nat → TransportOutcome) :
    (url = [] →
      billbeeGet sbi url qs t = (.err .missingUrl, [])
      ∧ billbeePost url body t = (.err .missingUrl, [])
      ∧ billbeePut url body t = (.err .missingUrl, [])
      ∧ billbeePatch url body t = (.err .missingUrl, [])
      ∧ billbeeDel sbi url t = (.err .missingUrl, []))
    ∧ (url ≠ [] → body = [] → billbeePost url body t = (.err .missingBody, [])) := by
  constructor
  · intro h
    refine ⟨?_, ?_, ?_, ?_, ?_⟩ <;> simp [billbeeGet, billbeePost, billbeePut, billbeePatch,
      billbeeDel, h]
  · intro h1 h2
    rw [billbeePost, if_neg h1, if_pos h2]

/-- Witness for C9 at concrete empty-path and empty-body calls. -/
theorem claim9_witness :
    billbeeGet true [] [] (fun _ => .ok okBody) = (.err .missingUrl, [])
    ∧ billbeePost urlOrders [] (fun _ => .ok okBody) = (.err .missingBody, []) :=
  ⟨((claim9_amended_guards true [] [] bodyKV (fun _ => .ok okBody)).1 rfl).1,
   (claim9_amended_guards true urlOrders [] [] (fun _ => .ok okBody)).2 (by decide) rfl⟩

instance (c : Char) : Decidable (plainChar c) := by
  unfold plainChar
  infer_instance

/-- Key of the single-field object template. -/
def keyId : List Char := ['I', 'd']

/-- Object template with a single field `Id` whose value text is `ds`. -/
def tmplId (ds : List Char) : List Char :=
  lbrace :: '"' :: 'I' :: 'd' :: '"' :: ':' :: (ds ++ [rbrace])

theorem quote17_tmplId_17 (ds : List Char) (h17 : ds.length = 17) (hd : ds.all Char.isDigit) :
    quote17 (tmplId ds) =
      lbrace :: '"' :: 'I' :: 'd' :: '"' :: ':' :: '"' :: (ds ++ '"' :: [rbrace]) := by
  have h1 : tmplId ds =
      [lbrace, '"', 'I', 'd', '"'] ++ (':' :: (ds ++ [rbrace])) := rfl
  rw [h1, quote17_append_nocolon _ _ (by decide), quote17_colon_match ds [rbrace] h17 hd,
    quote17_cons_ne _ (by decide), quote17_nil]
  rfl

theorem decode_tmpl17 (ds : List Char) (h17 : ds.length = 17) (hd : ds.all Char.isDigit) :
    jsonParse (quote17 (tmplId ds)) = some (.obj [(keyId, .str ds)]) := by
  rw [quote17_tmplId_17 ds h17 hd]
  have hplain : ∀ c ∈ ds, plainChar c := by
    intro c hc
    refine digit_plain ?_
    rw [List.all_eq_true] at hd
    exact hd c hc
  have hlen : (lbrace :: '"' :: 'I' :: 'd' :: '"' :: ':' :: '"' :: (ds ++ '"' :: [rbrace])).length
      = 26 := by
    simp [h17]
  rw [jsonParse, hlen]
  rw [show lbrace :: '"' :: 'I' :: 'd' :: '"' :: ':' :: '"' :: (ds ++ '"' :: [rbrace])
      = lbrace :: '"' :: ('I' :: 'd' :: '"' :: ':' :: '"' :: (ds ++ '"' :: [rbrace])) from rfl]
  rw [parseVal_obj_eq 26]
  rw [show (26 : Nat) = 25 + 1 from rfl]
  rw [show ('"' : Char) :: 'I' :: 'd' :: '"' :: ':' :: '"' :: (ds ++ '"' :: [rbrace])
      = '"' :: (keyId ++ '"' :: ':' :: ('"' :: (ds ++ '"' :: [rbrace]))) from rfl]
  rw [parseMembers_key 25 keyId _ (by decide)]
  rw [show (25 : Nat) = 24 + 1 from rfl]
  rw [parseVal_str 24 ds [rbrace] hplain]
  dsimp only []
  rw [skipWs_cons_not_ws (by decide)]
  dsimp only []
  rw [if_neg (show ¬rbrace = ',' by decide), if_pos rfl]
  rfl

theorem quote17_tmplId_16 (ds : List Char) (h16 : ds.length = 16) (hd : ds.all Char.isDigit) :
    quote17 (tmplId ds) = tmplId ds := by
  have hnc : ∀ c ∈ ds, c ≠ ':' := by
    intro c hc
    rw [List.all_eq_true] at hd
    exact digit_ne_of_toNat (hd c hc) (by decide)
  have h1 : tmplId ds = [lbrace, '"', 'I', 'd', '"'] ++ (':' :: (ds ++ [rbrace])) := rfl
  have htk : (ds ++ [rbrace]).take 17 = ds ++ [rbrace] := by
    apply List.take_of_length_le
    simp [h16]
  rw [h1, quote17_append_nocolon _ _ (by decide)]
  rw [quote17_colon_noquote]
  · rw [quote17_append_nocolon ds _ hnc, quote17_cons_ne _ (by decide), quote17_nil]
  · rintro ⟨hlen, hall⟩
    rw [htk] at hall
    simp only [List.all_append, Bool.and_eq_true, List.all_cons, List.all_nil] at hall
    exact absurd hall.2.1 (by decide)

theorem decode_tmpl16 (ds : List Char) (h16 : ds.length = 16) (hd : ds.all Char.isDigit)
    (hz : ds.head? ≠ some '0') :
    jsonParse (tmplId ds) = some (.obj [(keyId, .num (natOfDigits ds))]) := by
  have hne : ds ≠ [] := by
    intro h
    rw [h] at h16
    simp at h16
  have hlen : (tmplId ds).length = 23 := by
    simp [tmplId, h16]
  rw [jsonParse, hlen]
  rw [show tmplId ds = lbrace :: '"' :: ('I' :: 'd' :: '"' :: ':' :: (ds ++ [rbrace])) from rfl]
  rw [parseVal_obj_eq 23]
  rw [show (23 : Nat) = 22 + 1 from rfl]
  rw [show ('"' : Char) :: 'I' :: 'd' :: '"' :: ':' :: (ds ++ [rbrace])
      = '"' :: (keyId ++ '"' :: ':' :: (ds ++ [rbrace])) from rfl]
  rw [parseMembers_key 22 keyId _ (by decide)]
  rw [show (22 : Nat) = 21 + 1 from rfl]
  rw [show ds ++ [rbrace] = ds ++ rbrace :: [] from rfl]
  rw [parseVal_digits 21 ds rbrace [] hne hd (by decide) (fun hx => hz hx.1)]
  dsimp only []
  rw [skipWs_cons_not_ws (by decide)]
  dsimp only []
  rw [if_neg (show ¬rbrace = ',' by decide), if_pos rfl]
  rfl

theorem quote17_tmplId_18 (ds : List Char) (h : 18 ≤ ds.length) (hd : ds.all Char.isDigit) :
    quote17 (tmplId ds) = lbrace :: '"' :: 'I' :: 'd' :: '"' :: ':' :: '"' ::
      (ds.take 17 ++ '"' :: (ds.drop 17 ++ [rbrace])) := by
  have htk17 : (ds.take 17).length = 17 := by
    simp [List.length_take]
    omega
  have hdall : (ds.take 17).all Char.isDigit = true := by
    rw [List.all_eq_true] at hd ⊢
    exact fun c hc => hd c (List.take_subset 17 ds hc)
  have hdnc : ∀ c ∈ ds.drop 17, c ≠ ':' := by
    intro c hc
    rw [List.all_eq_true] at hd
    exact digit_ne_of_toNat (hd c (List.drop_subset 17 ds hc)) (by decide)
  have h1 : tmplId ds =
      [lbrace, '"', 'I', 'd', '"'] ++ (':' :: (ds.take 17 ++ (ds.drop 17 ++ [rbrace]))) := by
    rw [tmplId]
    rw [show ds.take 17 ++ (ds.drop 17 ++ [rbrace]) = (ds.take 17 ++ ds.drop 17) ++ [rbrace] from
      (List.append_assoc _ _ _).symm]
    rw [List.take_append_drop]
    rfl
  rw [h1, quote17_append_nocolon _ _ (by decide),
    quote17_colon_match (ds.take 17) _ htk17 hdall,
    quote17_append_nocolon (ds.drop 17) _ hdnc, quote17_cons_ne _ (by decide), quote17_nil]
  rfl

theorem decode_tmpl18 (ds : List Char) (h : 18 ≤ ds.length) (hd : ds.all Char.isDigit) :
    jsonParse (quote17 (tmplId ds)) = none := by
  rw [quote17_tmplId_18 ds h hd]
  obtain ⟨d, tl, hdt⟩ : ∃ d tl, ds.drop 17 = d :: tl := by
    cases hh : ds.drop 17 with
    | nil =>
      exfalso
      have hlen := congrArg List.length hh
      simp [List.length_drop] at hlen
      omega
    | cons d tl => exact ⟨d, tl, rfl⟩
  have hddig : d.isDigit = true := by
    rw [List.all_eq_true] at hd
    refine hd d (List.drop_subset 17 ds ?_)
    rw [hdt]
    exact List.mem_cons_self d tl
  have hplain : ∀ c ∈ ds.take 17, plainChar c := by
    intro c hc
    refine digit_plain ?_
    rw [List.all_eq_true] at hd
    exact hd c (List.take_subset 17 ds hc)
  rw [hdt]
  rw [jsonParse]
  have hlen2 : 2 ≤ (lbrace :: '"' :: 'I' :: 'd' :: '"' :: ':' :: '"' ::
      (ds.take 17 ++ '"' :: (d :: tl ++ [rbrace]))).length := by
    simp
  obtain ⟨k, hk⟩ : ∃ k, (lbrace :: '"' :: 'I' :: 'd' :: '"' :: ':' :: '"' ::
      (ds.take 17 ++ '"' :: (d :: tl ++ [rbrace]))).length = k + 2 :=
    ⟨(lbrace :: '"' :: 'I' :: 'd' :: '"' :: ':' :: '"' ::
      (ds.take 17 ++ '"' :: (d :: tl ++ [rbrace]))).length - 2, by omega⟩
  rw [hk]
  rw [show lbrace :: '"' :: 'I' :: 'd' :: '"' :: ':' :: '"' ::
      (ds.take 17 ++ '"' :: (d :: tl ++ [rbrace]))
      = lbrace :: '"' :: ('I' :: 'd' :: '"' :: ':' :: '"' ::
        (ds.take 17 ++ '"' :: (d :: tl ++ [rbrace]))) from rfl]
  rw [parseVal_obj_eq (k + 2)]
  rw [show ('"' : Char) :: 'I' :: 'd' :: '"' :: ':' :: '"' ::
      (ds.take 17 ++ '"' :: (d :: tl ++ [rbrace]))
      = '"' :: (keyId ++ '"' :: ':' :: ('"' :: (ds.take 17 ++ '"' :: (d :: tl ++ [rbrace]))))
      from rfl]
  rw [show (k : Nat) + 2 = (k + 1) + 1 from rfl]
  rw [parseMembers_key (k + 1) keyId _ (by decide)]
  rw [show d :: tl ++ [rbrace] = d :: (tl ++ [rbrace]) from rfl]
  rw [parseVal_str k (ds.take 17) (d :: (tl ++ [rbrace])) hplain]
  dsimp only []
  rw [skipWs_digit hddig]
  dsimp only []
  rw [if_neg (digit_ne_of_toNat hddig (by decide)),
    if_neg (digit_ne_of_toNat hddig (by decide))]
  rfl

/-- Concrete 17-digit run. -/
def d17c : List Char :=
  ['1', '2', '3', '4', '5', '6', '7', '8', '9', '0', '1', '2', '3', '4', '5', '6', '7']

/-- Concrete 16-digit run. -/
def d16c : List Char :=
  ['1', '2', '3', '4', '5', '6', '7', '8', '9', '0', '1', '2', '3', '4', '5', '6']

/-- Concrete 18-digit run. -/
def d18c : List Char :=
  ['1', '2', '3', '4', '5', '6', '7', '8', '9', '0', '1', '2', '3', '4', '5', '6', '7', '8']

/-- Claim C4: with precision mode enabled, a response object whose field
value is a run of exactly seventeen digits after the colon decodes to a
string-typed field equal to the original digit sequence, while a
sixteen-digit run is left textually untouched by the rewrite and decodes
to a number (the sixteen-digit numeral must not start with a leading
zero, or the body would not be valid JSON in the first place). -/
theorem claim4_digit_boundary (ds17 ds16 : List Char)
    (h17 : ds17.length = 17) (hd17 : ds17.all Char.isDigit)
    (h16 : ds16.length = 16) (hd16 : ds16.all Char.isDigit) (hz : ds16.head? ≠ some '0') :
    maybeParse true (tmplId ds17) = .ok (.parsed (.obj [(keyId, .str ds17)]))
    ∧ quote17 (tmplId ds16) = tmplId ds16
    ∧ maybeParse true (tmplId ds16) = .ok (.parsed (.obj [(keyId, .num (natOfDigits ds16))])) := by
  refine ⟨?_, quote17_tmplId_16 ds16 h16 hd16, ?_⟩
  · rw [maybeParse, if_pos rfl, decode_tmpl17 ds17 h17 hd17]
  · rw [maybeParse, if_pos rfl, quote17_tmplId_16 ds16 h16 hd16, decode_tmpl16 ds16 h16 hd16 hz]

/-- Witness for C4 at concrete 17- and 16-digit runs. -/
theorem claim4_witness :
    (d17c.length = 17 ∧ d17c.all Char.isDigit = true ∧ d16c.length = 16
      ∧ d16c.all Char.isDigit = true ∧ d16c.head? ≠ some '0')
    ∧ (maybeParse true (tmplId d17c) = .ok (.parsed (.obj [(keyId, .str d17c)]))
      ∧ quote17 (tmplId d16c) = tmplId d16c
      ∧ maybeParse true (tmplId d16c)
        = .ok (.parsed (.obj [(keyId, .num (natOfDigits d16c))]))) :=
  ⟨by decide,
   claim4_digit_boundary d17c d16c (by decide) (by decide) (by decide) (by decide) (by decide)⟩

/-- Claim C10: with precision mode enabled, a bare run of eighteen or
more digits after a colon is rewritten by quoting only its first
seventeen digits, stranding the remaining digits outside the inserted
quotes, so the subsequent JSON decode fails with a decode error instead
of returning a value. -/
theorem claim10_overlong_run (ds : List Char) (h18 : 18 ≤ ds.length)
    (hd : ds.all Char.isDigit) :
    quote17 (tmplId ds) = lbrace :: '"' :: 'I' :: 'd' :: '"' :: ':' :: '"' ::
      (ds.take 17 ++ '"' :: (ds.drop 17 ++ [rbrace]))
    ∧ maybeParse true (tmplId ds) = .error .decode :=
  ⟨quote17_tmplId_18 ds h18 hd, by rw [maybeParse, if_pos rfl, decode_tmpl18 ds h18 hd]⟩

/-- Witness for C10 at a concrete 18-digit run. -/
theorem claim10_witness :
    (18 ≤ d18c.length ∧ d18c.all Char.isDigit = true)
    ∧ (quote17 (tmplId d18c) = lbrace :: '"' :: 'I' :: 'd' :: '"' :: ':' :: '"' ::
        (d18c.take 17 ++ '"' :: (d18c.drop 17 ++ [rbrace]))
      ∧ maybeParse true (tmplId d18c) = .error .decode) :=
  ⟨by decide, claim10_overlong_run d18c (by decide) (by decide)⟩

/-- Counterexample to C3 as stated: with precision mode enabled, POST
returns the transport-decoded body without the precision rewrite — on a
body whose `Id` field is a seventeen-digit run, POST settles with a
number-typed field whereas the rewrite-then-decode path (which the
claim says every operation uses) yields a string-typed field. -/
theorem claim3_counterexample :
    (billbeePost urlOrders bodyKV (fun _ => .ok (tmplId d17c))).1
      = .ok (.parsed (.obj [(keyId, .num (natOfDigits d17c))]))
    ∧ maybeParse true (tmplId d17c) = .ok (.parsed (.obj [(keyId, .str d17c)]))
    ∧ Json.num (natOfDigits d17c) ≠ Json.str d17c := by
  refine ⟨rfl, ?_, fun h => Json.noConfusion h⟩
  rw [maybeParse, if_pos rfl, decode_tmpl17 d17c (by decide) (by decide)]

/-- Claim C3 (amended): with precision mode enabled, GET and DELETE
apply `maybeParse` (the precision rewrite followed by structured
decoding) to the first-attempt response, while POST, PUT and PATCH
return the transport-decoded body and skip the rewrite entirely. -/
theorem claim3_rewrite_get_del_only (url : List Char) (qs body : List (List Char × List Char))
    (b : List Char) (hurl : url ≠ []) (hbody : body ≠ []) :
    ((billbeeGet true url qs (fun _ => .ok b)).1
      = match maybeParse true b with
        | .ok v => CallResult.ok v
        | .error e => CallResult.err e)
    ∧ ((billbeeDel true url (fun _ => .ok b)).1
      = match maybeParse true b with
        | .ok v => CallResult.ok v
        | .error e => CallResult.err e)
    ∧ (billbeePost url body (fun _ => .ok b)).1 = .ok (decodePlain b)
    ∧ (billbeePut url body (fun _ => .ok b)).1 = .ok (decodePlain b)
    ∧ (billbeePatch url body (fun _ => .ok b)).1 = .ok (decodePlain b) := by
  refine ⟨?_, ?_, ?_, ?_, ?_⟩
  · rw [billbeeGet, if_neg hurl]
    simp only [runCall]
    cases hm : maybeParse true b <;> simp [hm]
  · rw [billbeeDel, if_neg hurl]
    simp only [runCall]
    cases hm : maybeParse true b <;> simp [hm]
  · rw [billbeePost, if_neg hurl, if_neg hbody]
    simp [runCall]
  · rw [billbeePut, if_neg hurl]
    simp [runCall]
  · rw [billbeePatch, if_neg hurl]
    simp [runCall]

/-- Witness for C3 at a concrete body on GET and POST. -/
theorem claim3_witness :
    ((billbeeGet true urlOrders [] (fun _ => .ok okBody)).1
      = match maybeParse true okBody with
        | .ok v => CallResult.ok v
        | .error e => CallResult.err e)
    ∧ (billbeePost urlOrders bodyKV (fun _ => .ok okBody)).1 = .ok (decodePlain okBody) :=
  ⟨(claim3_rewrite_get_del_only urlOrders [] bodyKV okBody (by decide) (by decide)).1,
   (claim3_rewrite_get_del_only urlOrders [] bodyKV okBody (by decide) (by decide)).2.2.1⟩

/-- Key of the vendor-string field in the two-field template. -/
def keyA : List Char := ['a']

/-- Key of the bare-numeric field in the two-field template. -/
def keyB : List Char := ['b']

/-- Response template carrying a vendor id inside a string value and an
unrelated bare seventeen-digit numeric field. -/
def tmplVendor (vds d17 : List Char) : List Char :=
  lbrace :: '"' :: 'a' :: '"' :: ':' :: '"' ::
    (tiktokLit ++ (vds ++ ('"' :: ',' :: '"' :: 'b' :: '"' :: ':' :: (d17 ++ [rbrace]))))

theorem quote17_colon_nondigit (c : Char) (rest : List Char) (hc : c.isDigit = false) :
    quote17 (':' :: (c :: rest)) = ':' :: quote17 (c :: rest) := by
  apply quote17_colon_noquote
  rintro ⟨hlen, hall⟩
  rw [show (17 : Nat) = 16 + 1 from rfl, List.take_succ_cons] at hall
  simp only [List.all_cons, Bool.and_eq_true] at hall
  rw [hc] at hall
  exact Bool.noConfusion hall.1

theorem maskScan_tmplVendor (vds d17 : List Char) (hvne : vds ≠ [])
    (hvd : vds.all Char.isDigit) (hd17 : d17.all Char.isDigit) :
    maskScan 0 (tmplVendor vds d17) =
      (lbrace :: '"' :: 'a' :: '"' :: ':' :: '"' ::
        (placeholder 0 ++ ('"' :: ',' :: '"' :: 'b' :: '"' :: ':' :: (d17 ++ [rbrace]))),
       [(placeholder 0, tiktokLit ++ vds)]) := by
  have hrest : ∀ c ∈ ('"' :: ',' :: '"' :: 'b' :: '"' :: ':' :: (d17 ++ [rbrace])), c ≠ 'T' := by
    intro c hc
    simp only [List.mem_cons, List.mem_append, List.not_mem_nil, or_false] at hc
    rcases hc with rfl | rfl | rfl | rfl | rfl | rfl | hc | rfl
    · decide
    · decide
    · decide
    · decide
    · decide
    · decide
    · rw [List.all_eq_true] at hd17
      exact digit_ne_of_toNat (hd17 c hc) (by decide)
    · decide
  have h1 : tmplVendor vds d17 = [lbrace, '"', 'a', '"', ':', '"'] ++
      (tiktokLit ++ (vds ++ ('"' :: (',' :: '"' :: 'b' :: '"' :: ':' :: (d17 ++ [rbrace])))))
      := rfl
  rw [h1, maskScan_append_no_t 0 _ _ (by decide)]
  rw [maskScan_match 0 vds '"' _ hvne hvd (by decide)]
  rw [maskScan_no_t 1 _ hrest]
  rfl

theorem quote17_masked_vendor (d17 : List Char) (h17 : d17.length = 17)
    (hd : d17.all Char.isDigit) :
    quote17 (lbrace :: '"' :: 'a' :: '"' :: ':' :: '"' ::
        (placeholder 0 ++ ('"' :: ',' :: '"' :: 'b' :: '"' :: ':' :: (d17 ++ [rbrace]))))
      = lbrace :: '"' :: 'a' :: '"' :: ':' :: '"' ::
        (placeholder 0 ++ ('"' :: ',' :: '"' :: 'b' :: '"' :: ':' :: '"' ::
          (d17 ++ '"' :: [rbrace]))) := by
  rw [show lbrace :: '"' :: 'a' :: '"' :: ':' :: '"' ::
        (placeholder 0 ++ ('"' :: ',' :: '"' :: 'b' :: '"' :: ':' :: (d17 ++ [rbrace])))
      = [lbrace, '"', 'a', '"'] ++ (':' ::
        ('"' :: (placeholder 0 ++ ('"' :: ',' :: '"' :: 'b' :: '"' :: ':' :: (d17 ++ [rbrace])))))
      from rfl]
  rw [quote17_append_nocolon _ _ (by decide)]
  rw [quote17_colon_nondigit '"' _ (by decide)]
  rw [quote17_cons_ne _ (by decide)]
  rw [quote17_append_nocolon (placeholder 0) _ (by decide)]
  rw [show ('"' : Char) :: ',' :: '"' :: 'b' :: '"' :: ':' :: (d17 ++ [rbrace])
      = ['"', ',', '"', 'b', '"'] ++ (':' :: (d17 ++ [rbrace])) from rfl]
  rw [quote17_append_nocolon _ _ (by decide)]
  rw [quote17_colon_match d17 [rbrace] h17 hd]
  rw [quote17_cons_ne _ (by decide), quote17_nil]
  rfl

theorem restore_vendor (repl rest : List Char) :
    replaceFirst (placeholder 0) repl
      (lbrace :: '"' :: 'a' :: '"' :: ':' :: '"' :: (placeholder 0 ++ rest))
      = lbrace :: '"' :: 'a' :: '"' :: ':' :: '"' :: (repl ++ rest) := by
  have hph : placeholder 0 = '_' :: '_' :: 'T' :: 'I' :: 'K' :: 'T' :: 'O' :: 'K' :: '_' ::
      'P' :: 'L' :: 'A' :: 'C' :: 'E' :: 'H' :: 'O' :: 'L' :: 'D' :: 'E' :: 'R' :: '_' ::
      '0' :: '_' :: '_' :: [] := by decide
  rw [hph]
  rw [replaceFirst_cons_ne _ _ _ (leadsWith_cons_ne _ _ (by decide))]
  rw [replaceFirst_cons_ne _ _ _ (leadsWith_cons_ne _ _ (by decide))]
  rw [replaceFirst_cons_ne _ _ _ (leadsWith_cons_ne _ _ (by decide))]
  rw [replaceFirst_cons_ne _ _ _ (leadsWith_cons_ne _ _ (by decide))]
  rw [replaceFirst_cons_ne _ _ _ (leadsWith_cons_ne _ _ (by decide))]
  rw [replaceFirst_cons_ne _ _ _ (leadsWith_cons_ne _ _ (by decide))]
  rw [replaceFirst_here]

theorem decode_restored_vendor (vds d17 : List Char)
    (hvd : vds.all Char.isDigit) (hd17 : d17.all Char.isDigit) :
    jsonParse (lbrace :: '"' :: 'a' :: '"' :: ':' :: '"' ::
        ((tiktokLit ++ vds) ++ ('"' :: ',' :: '"' :: 'b' :: '"' :: ':' :: '"' ::
          (d17 ++ '"' :: [rbrace]))))
      = some (.obj [(keyA, .str (tiktokLit ++ vds)), (keyB, .str d17)]) := by
  have hplainS : ∀ c ∈ tiktokLit ++ vds, plainChar c := by
    intro c hc
    rw [List.mem_append] at hc
    rcases hc with hc | hc
    · revert c
      decide
    · refine digit_plain ?_
      rw [List.all_eq_true] at hvd
      exact hvd c hc
  have hplain17 : ∀ c ∈ d17, plainChar c := by
    intro c hc
    refine digit_plain ?_
    rw [List.all_eq_true] at hd17
    exact hd17 c hc
  rw [jsonParse]
  obtain ⟨m, hm⟩ : ∃ m, (lbrace :: '"' :: 'a' :: '"' :: ':' :: '"' ::
      ((tiktokLit ++ vds) ++ ('"' :: ',' :: '"' :: 'b' :: '"' :: ':' :: '"' ::
        (d17 ++ '"' :: [rbrace])))).length = m + 3 :=
    ⟨(lbrace :: '"' :: 'a' :: '"' :: ':' :: '"' ::
      ((tiktokLit ++ vds) ++ ('"' :: ',' :: '"' :: 'b' :: '"' :: ':' :: '"' ::
        (d17 ++ '"' :: [rbrace])))).length - 3, by simp⟩
  rw [hm]
  rw [show lbrace :: '"' :: 'a' :: '"' :: ':' :: '"' ::
      ((tiktokLit ++ vds) ++ ('"' :: ',' :: '"' :: 'b' :: '"' :: ':' :: '"' ::
        (d17 ++ '"' :: [rbrace])))
      = lbrace :: '"' :: ('a' :: '"' :: ':' :: '"' ::
        ((tiktokLit ++ vds) ++ ('"' :: ',' :: '"' :: 'b' :: '"' :: ':' :: '"' ::
          (d17 ++ '"' :: [rbrace])))) from rfl]
  rw [parseVal_obj_eq (m + 3)]
  rw [show ('"' : Char) :: 'a' :: '"' :: ':' :: '"' ::
      ((tiktokLit ++ vds) ++ ('"' :: ',' :: '"' :: 'b' :: '"' :: ':' :: '"' ::
        (d17 ++ '"' :: [rbrace])))
      = '"' :: (keyA ++ '"' :: ':' :: ('"' :: ((tiktokLit ++ vds) ++ '"' ::
        (',' :: '"' :: 'b' :: '"' :: ':' :: '"' :: (d17 ++ '"' :: [rbrace]))))) from rfl]
  rw [show (m : Nat) + 3 = (m + 2) + 1 from rfl]
  rw [parseMembers_key (m + 2) keyA _ (by decide)]
  rw [show (m : Nat) + 2 = (m + 1) + 1 from rfl]
  rw [parseVal_str (m + 1) (tiktokLit ++ vds)
    (',' :: '"' :: 'b' :: '"' :: ':' :: '"' :: (d17 ++ '"' :: [rbrace])) hplainS]
  dsimp only []
  rw [skipWs_cons_not_ws (by decide)]
  dsimp only []
  rw [if_pos rfl]
  rw [show ('"' : Char) :: 'b' :: '"' :: ':' :: '"' :: (d17 ++ '"' :: [rbrace])
      = '"' :: (keyB ++ '"' :: ':' :: ('"' :: (d17 ++ '"' :: [rbrace]))) from rfl]
  rw [parseMembers_key (m + 1) keyB _ (by decide)]
  rw [parseVal_str m d17 [rbrace] hplain17]
  dsimp only []
  rw [skipWs_cons_not_ws (by decide)]
  dsimp only []
  rw [if_neg (show ¬rbrace = ',' by decide), if_pos rfl]
  rfl

/-- Claim C5: the masking `bigIntStringify` variant first masks every
`TikTokOrderID:<digits>` occurrence with a unique placeholder, then
quotes the bare seventeen-digit run, then restores the originals, so
that decoding leaves the intra-string vendor id byte-for-byte untouched
while the bare seventeen-digit numeric field becomes a string. -/
theorem claim5_masking_roundtrip (vds d17 : List Char)
    (hvne : vds ≠ []) (hvd : vds.all Char.isDigit)
    (h17 : d17.length = 17) (hd17 : d17.all Char.isDigit) :
    (maskScan 0 (tmplVendor vds d17)).2 = [(placeholder 0, tiktokLit ++ vds)]
    ∧ bigIntStringifyMasked (tmplVendor vds d17)
      = lbrace :: '"' :: 'a' :: '"' :: ':' :: '"' ::
        ((tiktokLit ++ vds) ++ ('"' :: ',' :: '"' :: 'b' :: '"' :: ':' :: '"' ::
          (d17 ++ '"' :: [rbrace])))
    ∧ jsonParse (bigIntStringifyMasked (tmplVendor vds d17))
      = some (.obj [(keyA, .str (tiktokLit ++ vds)), (keyB, .str d17)]) := by
  have hmask := maskScan_tmplVendor vds d17 hvne hvd hd17
  have hbim : bigIntStringifyMasked (tmplVendor vds d17)
      = lbrace :: '"' :: 'a' :: '"' :: ':' :: '"' ::
        ((tiktokLit ++ vds) ++ ('"' :: ',' :: '"' :: 'b' :: '"' :: ':' :: '"' ::
          (d17 ++ '"' :: [rbrace]))) := by
    rw [bigIntStringifyMasked]
    rw [hmask]
    dsimp only [List.foldl]
    rw [quote17_masked_vendor d17 h17 hd17]
    rw [restore_vendor]
  refine ⟨by rw [hmask], hbim, ?_⟩
  rw [hbim]
  exact decode_restored_vendor vds d17 hvd hd17

/-- Witness for C5 at a concrete 18-digit vendor id and 17-digit bare
run. -/
theorem claim5_witness :
    (d18c ≠ [] ∧ d18c.all Char.isDigit = true
      ∧ d17c.length = 17 ∧ d17c.all Char.isDigit = true)
    ∧ ((maskScan 0 (tmplVendor d18c d17c)).2 = [(placeholder 0, tiktokLit ++ d18c)]
      ∧ bigIntStringifyMasked (tmplVendor d18c d17c)
        = lbrace :: '"' :: 'a' :: '"' :: ':' :: '"' ::
          ((tiktokLit ++ d18c) ++ ('"' :: ',' :: '"' :: 'b' :: '"' :: ':' :: '"' ::
            (d17c ++ '"' :: [rbrace])))
      ∧ jsonParse (bigIntStringifyMasked (tmplVendor d18c d17c))
        = some (.obj [(keyA, .str (tiktokLit ++ d18c)), (keyB, .str d17c)])) :=
  ⟨by decide, claim5_masking_roundtrip d18c d17c (by decide) (by decide) (by decide) (by decide)⟩

end Billbee
